import Mathlib

/-!
# Terminal query module (`emacs-terminal-query.c`)

A shallow embedding of the two module functions
`terminal_query_cursor_position` and `terminal_query_cell_size`.

* Bytes are natural numbers, a C string is the list of bytes before the first
  NUL byte of its buffer.
* `sscanf` is embedded for the two directive kinds the source's format strings
  use: an ordinary (non-white-space) character and `%d`.
* `%d` stores its value the way glibc does on an LP64 platform: `strtol`, then
  a store through `int *`. ISO C leaves a value outside the range of `int`
  undefined; no statement below depends on that case except through the
  values `sscanf` is said to store.
* The terminal device is an explicit attribute state (`Termios`) together with
  the answers it gives to one call (`Device`); every library call the source
  makes is recorded in a trace of `Effect`s.
* The constants and the structure of `<termios.h>` are not part of the
  repository: the constants are a parameter (`Consts`), with the Linux values
  as an instance for evaluation.
-/

namespace TerminalQuery

/-! ## Bytes and C strings -/

/-- The C library's `isspace` in the "C" locale: space, and `\t \n \v \f \r`. -/
def isspace (c : Nat) : Bool := c == 32 || (9 ≤ c && c ≤ 13)

/-- The C library's `isdigit`: the bytes `'0'` to `'9'`. -/
def isdigit (c : Nat) : Bool := 48 ≤ c && c ≤ 57

/-- The string a `char` buffer denotes: its bytes up to the first NUL. -/
def cstr (buf : List Nat) : List Nat := buf.takeWhile (fun b => b != 0)

/-! ## `sscanf` -/

/-- One directive of a `scanf` format: an ordinary character, or `%d`. -/
inductive Directive where
  | lit (c : Nat)
  | int
  deriving DecidableEq, Repr

/-- Split a format string into directives: `%d` (bytes 37, 100) is a decimal
conversion, every other byte an ordinary character. -/
def parseFormat : List Nat → List Directive
  | [] => []
  | 37 :: 100 :: rest => Directive.int :: parseFormat rest
  | c :: rest => Directive.lit c :: parseFormat rest

/-- Value of a run of decimal digit bytes, most significant first. -/
def digitsValue (ds : List Nat) : Nat := ds.foldl (fun a d => 10 * a + (d - 48)) 0

/-- Largest `long` of an LP64 platform. -/
def LONG_MAX : Int := 9223372036854775807

/-- Smallest `long` of an LP64 platform. -/
def LONG_MIN : Int := -9223372036854775808

/-- The `strtol` conversion in base 10 of an optional sign and a run of
digits: the mathematical value, clamped to the range of `long`. -/
def strtol (neg : Bool) (ds : List Nat) : Int :=
  let m : Int := (digitsValue ds : Int)
  let v : Int := if neg then -m else m
  if v < LONG_MIN then LONG_MIN else if LONG_MAX < v then LONG_MAX else v

/-- Storing a `long` through an `int *`: the value modulo `2^32`, read as a
signed 32-bit integer. -/
def toInt (v : Int) : Int := (v + 2147483648) % 4294967296 - 2147483648

/-- Outcome of one `%d` conversion. -/
inductive Conv where
  | inputError
  | convError
  | ok (value : Int) (rest : List Nat)
  deriving DecidableEq, Repr

/-- The `%d` conversion: skip white space, fail with an input error at the end
of the string, read an optional sign and then the longest run of digits, fail
with a matching error when there is no digit, else convert and store. -/
def scanInt (s : List Nat) : Conv :=
  match s.dropWhile isspace with
  | [] => Conv.inputError
  | c :: rest =>
    let neg : Bool := c == 45
    let body : List Nat := if c == 45 || c == 43 then rest else c :: rest
    let ds := body.takeWhile isdigit
    if ds.isEmpty then Conv.convError
    else Conv.ok (toInt (strtol neg ds)) (body.dropWhile isdigit)

/-- The value returned on an input error: `EOF` (-1) when nothing has been
assigned yet, else the number of assignments. -/
def inputError (acc : List Int) : Int × List Int :=
  (if acc.length = 0 then -1 else (acc.length : Int), acc)

/-- Run the directives over the input; `acc` holds the values assigned so far,
in order. Gives the return value of `sscanf` and the assigned values. -/
def scanDirectives : List Directive → List Nat → List Int → Int × List Int
  | [], _, acc => ((acc.length : Int), acc)
  | Directive.lit _ :: _, [], acc => inputError acc
  | Directive.lit c :: fmt, x :: s, acc =>
    if x = c then scanDirectives fmt s acc else ((acc.length : Int), acc)
  | Directive.int :: fmt, s, acc =>
    match scanInt s with
    | Conv.inputError => inputError acc
    | Conv.convError => ((acc.length : Int), acc)
    | Conv.ok v rest => scanDirectives fmt rest (acc ++ [v])

/-- The call `sscanf(buf, format, ...)` with only `%d` conversions: the return
value and the list of values stored through the pointer arguments. -/
def sscanf (buf : List Nat) (format : List Nat) : Int × List Int :=
  scanDirectives (parseFormat format) (cstr buf) []

/-! ## Results -/

/-- What a module function returns: `nil`, or the cons of two integers. -/
inductive QueryResult where
  | Absent
  | Present (a b : Int)
  deriving DecidableEq, Repr

/-- The format `"\033[%d;%dR"` of the cursor position report. -/
def cursorFormat : List Nat := [27, 91, 37, 100, 59, 37, 100, 82]

/-- The format `"\033[%d;%d;%dt"` of the cell size report. -/
def cellFormat : List Nat := [27, 91, 37, 100, 59, 37, 100, 59, 37, 100, 116]

/-- The request `"\033[6n"`. -/
def cursorRequest : List Nat := [27, 91, 54, 110]

/-- The request `"\033[16t"`. -/
def cellRequest : List Nat := [27, 91, 49, 54, 116]

/-! ## The terminal device -/

/-- The fields of `struct termios` that POSIX names: the four flag words and
the control character array. -/
structure Termios where
  c_iflag : Nat
  c_oflag : Nat
  c_cflag : Nat
  c_lflag : Nat
  c_cc : List Nat
  deriving DecidableEq, Repr

/-- The constants of `<termios.h>` the source uses: the local-mode bits
`ICANON` and `ECHO`, and the subscripts `VMIN` and `VTIME` of `c_cc`. -/
structure Consts where
  ICANON : Nat
  ECHO : Nat
  VMIN : Nat
  VTIME : Nat
  deriving DecidableEq, Repr

/-- The values of these constants on Linux. -/
def linux : Consts := { ICANON := 2, ECHO := 8, VMIN := 6, VTIME := 5 }

/-- The answers the outside world gives during one call: the value `open`
returns, whether `tcgetattr` and the two `tcsetattr` calls succeed, what
`old_tio` holds before `tcgetattr` fills it, and what `write` and `read`
return, with the bytes `read` offers. -/
structure Device where
  openRet : Int
  getOk : Bool
  stackTio : Termios
  setOk : Bool
  writeRet : Int
  readRet : Int
  readData : List Nat
  restoreOk : Bool
  deriving DecidableEq, Repr

/-- One library call made by a module function, with its arguments. -/
inductive Effect where
  | openTty
  | tcgetattr (fd : Int)
  | tcsetattr (fd : Int) (tio : Termios)
  | write (fd : Int) (bytes : List Nat)
  | usleep (usec : Nat)
  | read (fd : Int) (buf : List Nat) (count : Nat)
  | close (fd : Int)
  | sscanf (buf : List Nat) (format : List Nat)
  deriving DecidableEq, Repr

/-- Lines 21-24 and 64-67: `new_tio = old_tio; new_tio.c_lflag &= ~(ICANON |
ECHO); new_tio.c_cc[VMIN] = 0; new_tio.c_cc[VTIME] = 5;` on 32-bit flag
words. -/
def rawMode (K : Consts) (old_tio : Termios) : Termios :=
  let new_tio := old_tio
  let new_tio := { new_tio with
    c_lflag := new_tio.c_lflag &&& (4294967295 - (K.ICANON ||| K.ECHO)) }
  let new_tio := { new_tio with c_cc := new_tio.c_cc.set K.VMIN 0 }
  { new_tio with c_cc := new_tio.c_cc.set K.VTIME 5 }

/-- The buffer after `read(fd, buf, count)` has stored the bytes it was
offered: at most `count` of them, at the start of `buf`. -/
def readInto (buf : List Nat) (data : List Nat) (count : Nat) : List Nat :=
  data.take count ++ buf.drop (data.take count).length

/-- The local state after line 35 (line 76): the byte count and the buffer,
with the device's attributes and the calls made so far. -/
structure Exchange where
  n : Int
  buf : List Nat
  attrs : Termios
  trace : List Effect
  deriving DecidableEq, Repr

/-- Lines 19-35 of `terminal_query_cursor_position` and lines 62-76 of
`terminal_query_cell_size`, which differ in the request only; `attrs` is the
attribute state of the terminal when the call starts. No return value but that
of `read` is looked at. -/
def exchange (K : Consts) (request : List Nat) (dev : Device) (attrs : Termios) :
    Exchange :=
  let fd := dev.openRet
  let old_tio := if dev.getOk then attrs else dev.stackTio
  let new_tio := rawMode K old_tio
  let attrs1 := if dev.setOk then new_tio else attrs
  let buf := List.replicate 64 0
  let n := dev.readRet
  let buf1 := readInto buf dev.readData (64 - 1)
  let attrs2 := if dev.restoreOk then old_tio else attrs1
  { n := n, buf := buf1, attrs := attrs2,
    trace := [Effect.openTty, Effect.tcgetattr fd, Effect.tcsetattr fd new_tio,
      Effect.write fd request, Effect.usleep 100000, Effect.read fd buf (64 - 1),
      Effect.tcsetattr fd old_tio, Effect.close fd] }

/-- Lines 37-50 of `terminal_query_cursor_position`: the result computed from
the byte count `n` of the read and the buffer, with the calls made. -/
def cursorResult (n : Int) (buf : List Nat) : QueryResult × List Effect :=
  if n ≤ 0 then (QueryResult.Absent, [])
  else
    let r := sscanf buf cursorFormat
    if r.1 = 2 then
      (QueryResult.Present (r.2.getD 0 0) (r.2.getD 1 0), [Effect.sscanf buf cursorFormat])
    else (QueryResult.Absent, [Effect.sscanf buf cursorFormat])

/-- Lines 78-86 of `terminal_query_cell_size`: the result computed from the
byte count `n` of the read and the buffer, with the calls made; `type`,
`height`, `width` are the three stored values, the pair is `(width . height)`,
and `sscanf` is only called when `n > 0`. -/
def cellResult (n : Int) (buf : List Nat) : QueryResult × List Effect :=
  if 0 < n then
    let r := sscanf buf cellFormat
    if r.1 = 3 ∧ r.2.getD 0 0 = 6 then
      (QueryResult.Present (r.2.getD 2 0) (r.2.getD 1 0), [Effect.sscanf buf cellFormat])
    else (QueryResult.Absent, [Effect.sscanf buf cellFormat])
  else (QueryResult.Absent, [])

/-- What one call of a module function yields: the value returned, the
attribute state of the terminal afterwards, and the library calls made, in
order. -/
structure Outcome where
  result : QueryResult
  attrs : Termios
  trace : List Effect
  deriving DecidableEq, Repr

/-- The function `terminal_query_cursor_position` (lines 11-51). -/
def terminal_query_cursor_position (K : Consts) (dev : Device) (attrs : Termios) :
    Outcome :=
  if dev.openRet < 0 then
    { result := QueryResult.Absent, attrs := attrs, trace := [Effect.openTty] }
  else
    let x := exchange K cursorRequest dev attrs
    let r := cursorResult x.n x.buf
    { result := r.1, attrs := x.attrs, trace := x.trace ++ r.2 }

/-- The function `terminal_query_cell_size` (lines 54-87). -/
def terminal_query_cell_size (K : Consts) (dev : Device) (attrs : Termios) :
    Outcome :=
  if dev.openRet < 0 then
    { result := QueryResult.Absent, attrs := attrs, trace := [Effect.openTty] }
  else
    let x := exchange K cellRequest dev attrs
    let r := cellResult x.n x.buf
    { result := r.1, attrs := x.attrs, trace := x.trace ++ r.2 }

/-- The two operations of the module. -/
inductive Op where
  | cursor
  | cell
  deriving DecidableEq, Repr

/-- One call of the named operation. -/
def call (K : Consts) (op : Op) (dev : Device) (attrs : Termios) : Outcome :=
  match op with
  | Op.cursor => terminal_query_cursor_position K dev attrs
  | Op.cell => terminal_query_cell_size K dev attrs

/-- A sequence of calls on one terminal, each with the device's answers during
it: for every call, the attribute state right before it and its outcome. -/
def runCalls (K : Consts) : Termios → List (Op × Device) → List (Termios × Outcome)
  | _, [] => []
  | attrs, (op, dev) :: rest =>
    (attrs, call K op dev attrs) :: runCalls K (call K op dev attrs).attrs rest

/-! ## Replies as the terminal writes them -/

/-- Digits of `n` in base ten before `acc`, most significant first, as ASCII
bytes; `fuel` bounds the number of digits. -/
def decimalAux : Nat → Nat → List Nat → List Nat
  | 0, _, acc => acc
  | fuel + 1, n, acc =>
    if n < 10 then (48 + n) :: acc
    else decimalAux fuel (n / 10) ((48 + n % 10) :: acc)

/-- The decimal numeral of `n` as ASCII bytes. -/
def decimal (n : Nat) : List Nat := decimalAux (n + 1) n []

/-- The reply `ESC [ row ; col R`. -/
def cursorReply (row col : Nat) : List Nat :=
  [27, 91] ++ decimal row ++ [59] ++ decimal col ++ [82]

/-- The reply `ESC [ 6 ; height ; width t`. -/
def cellReply (height width : Nat) : List Nat :=
  [27, 91, 54, 59] ++ decimal height ++ [59] ++ decimal width ++ [116]

/-- The bytes of a string literal. -/
def bytes (s : String) : List Nat := s.toList.map Char.toNat

/-- A device on which every call succeeds and the read delivers `reply`. -/
def replying (fd : Int) (tio : Termios) (reply : List Nat) : Device :=
  { openRet := fd, getOk := true, stackTio := tio, setOk := true,
    writeRet := 0, readRet := (reply.length : Int), readData := reply, restoreOk := true }

/-- A sample attribute state: canonical mode with echo, seven control
characters. -/
def cooked : Termios :=
  { c_iflag := 0, c_oflag := 0, c_cflag := 0, c_lflag := 10, c_cc := [3, 28, 127, 21, 4, 0, 1] }

/-- A device on which the open succeeds, `tcgetattr` and both `tcsetattr`
calls fail, and the read delivers `reply`. -/
def attrFailing (fd : Int) (tio : Termios) (reply : List Nat) : Device :=
  { replying fd tio reply with getOk := false, setOk := false, restoreOk := false }

/-- Five calls: a full reply, a garbled reply, a read of zero bytes, a read
error, and a failed open. -/
def sampleCalls : List (Op × Device) :=
  [(Op.cursor, replying 3 cooked (bytes "\x1b[24;80R")),
   (Op.cell, replying 4 cooked (bytes "\x1b[6;1")),
   (Op.cursor, replying 3 cooked []),
   (Op.cell, { replying 5 cooked [] with readRet := -1, writeRet := -1 }),
   (Op.cell, { replying (-1) cooked (bytes "\x1b[6;16;8t") with setOk := false })]

/-- The hypotheses of the platform: the two mode bits fit a 32-bit flag word,
`VMIN` and `VTIME` are different subscripts, and the attributes are those of a
`struct termios` (a 32-bit `c_lflag`, a `c_cc` with both subscripts). -/
def Sound (K : Consts) (t : Termios) : Prop :=
  K.ICANON < 4294967296 ∧ K.ECHO < 4294967296 ∧ K.VMIN ≠ K.VTIME ∧
    t.c_lflag < 4294967296 ∧ K.VMIN < t.c_cc.length ∧ K.VTIME < t.c_cc.length

/-! ## Lemmas on lists of bytes -/

/-- The longest prefix satisfying `p` of a run of such bytes followed by a byte
that fails `p` is the run. -/
theorem takeWhile_append_stop (p : Nat → Bool) (ds : List Nat) (c : Nat) (rest : List Nat)
    (hds : ∀ d ∈ ds, p d = true) (hc : p c = false) :
    (ds ++ c :: rest).takeWhile p = ds := by
  induction ds with
  | nil => simp [List.takeWhile, hc]
  | cons d ds ih =>
    have hd : p d = true := hds d (by simp)
    have ih2 := ih (fun x hx => hds x (by simp [hx]))
    simp [List.takeWhile, hd, ih2]

/-- Dropping the longest prefix satisfying `p` leaves the first byte failing
`p` and what follows it. -/
theorem dropWhile_append_stop (p : Nat → Bool) (ds : List Nat) (c : Nat) (rest : List Nat)
    (hds : ∀ d ∈ ds, p d = true) (hc : p c = false) :
    (ds ++ c :: rest).dropWhile p = c :: rest := by
  induction ds with
  | nil => simp [List.dropWhile, hc]
  | cons d ds ih =>
    have hd : p d = true := hds d (by simp)
    have ih2 := ih (fun x hx => hds x (by simp [hx]))
    simp [List.dropWhile, hd, ih2]

/-- One more digit at the end multiplies the value by ten and adds the digit. -/
theorem digitsValue_snoc (ds : List Nat) (d : Nat) :
    digitsValue (ds ++ [d]) = 10 * digitsValue ds + (d - 48) := by
  simp [digitsValue, List.foldl_append]

/-- With enough fuel `decimalAux` puts before `acc` a non-empty run of digit
bytes whose value is `n`. -/
theorem decimalAux_spec (fuel : Nat) : ∀ (n : Nat) (acc : List Nat), n < fuel →
    ∃ ds, decimalAux fuel n acc = ds ++ acc ∧ ds ≠ [] ∧ (∀ d ∈ ds, isdigit d = true) ∧
      digitsValue ds = n := by
  induction fuel with
  | zero => intro n acc h; omega
  | succ fuel ih =>
    intro n acc h
    by_cases hn : n < 10
    · refine ⟨[48 + n], ?_, by simp, ?_, ?_⟩
      · simp [decimalAux, hn]
      · intro d hd
        simp at hd
        subst hd
        simp [isdigit]
        omega
      · simp [digitsValue]
    · have hlt : n / 10 < fuel := by omega
      obtain ⟨ds, h1, h2, h3, h4⟩ := ih (n / 10) ((48 + n % 10) :: acc) hlt
      refine ⟨ds ++ [48 + n % 10], ?_, by simp, ?_, ?_⟩
      · simp [decimalAux, hn, h1]
      · intro d hd
        rcases List.mem_append.mp hd with hd | hd
        · exact h3 d hd
        · simp at hd
          subst hd
          simp [isdigit]
          omega
      · rw [digitsValue_snoc, h4]
        omega

/-- The numeral of `n` is a non-empty run of digit bytes of value `n`. -/
theorem decimal_spec (n : Nat) :
    decimal n ≠ [] ∧ (∀ d ∈ decimal n, isdigit d = true) ∧ digitsValue (decimal n) = n := by
  obtain ⟨ds, h1, h2, h3, h4⟩ := decimalAux_spec (n + 1) n [] (by omega)
  have : decimal n = ds := by simp [decimal, h1]
  rw [this]
  exact ⟨h2, h3, h4⟩

/-- An unsigned run of digits of value below `2^31` is stored unchanged. -/
theorem toInt_strtol_small (ds : List Nat) (h : digitsValue ds < 2147483648) :
    toInt (strtol false ds) = (digitsValue ds : Int) := by
  have h2 : ((digitsValue ds : Nat) : Int) < 2147483648 := by exact_mod_cast h
  have h0 : (0 : Int) ≤ ((digitsValue ds : Nat) : Int) := Int.ofNat_nonneg _
  simp only [strtol, toInt, LONG_MIN, LONG_MAX]
  simp only [Bool.false_eq_true, if_false]
  split_ifs <;> omega

/-- The `%d` conversion reads back the numeral of `n < 2^31` and stops at the
first byte that is not a digit. -/
theorem scanInt_decimal (n : Nat) (c : Nat) (rest : List Nat) (hn : n < 2147483648)
    (hc : isdigit c = false) :
    scanInt (decimal n ++ c :: rest) = Conv.ok (n : Int) (c :: rest) := by
  obtain ⟨h1, h2, h3⟩ := decimal_spec n
  obtain ⟨d, ds, hd⟩ := List.exists_cons_of_ne_nil h1
  have hdig : isdigit d = true := h2 d (by simp [hd])
  have hd48 : 48 ≤ d ∧ d ≤ 57 := by simpa [isdigit] using hdig
  have hsp : isspace d = false := by simp [isspace]; omega
  have h45 : (d == 45) = false := by simp; omega
  have h43 : (d == 43) = false := by simp; omega
  have htw : (decimal n ++ c :: rest).takeWhile isdigit = decimal n :=
    takeWhile_append_stop isdigit _ c rest h2 hc
  have hdw : (decimal n ++ c :: rest).dropWhile isdigit = c :: rest :=
    dropWhile_append_stop isdigit _ c rest h2 hc
  have hval := toInt_strtol_small (decimal n) (by rw [h3]; exact hn)
  rw [h3] at hval
  have hstep : scanInt (d :: (ds ++ c :: rest)) =
      if ((d :: (ds ++ c :: rest)).takeWhile isdigit).isEmpty then Conv.convError
      else Conv.ok (toInt (strtol false ((d :: (ds ++ c :: rest)).takeWhile isdigit)))
        ((d :: (ds ++ c :: rest)).dropWhile isdigit) := by
    simp only [scanInt, List.dropWhile_cons, hsp, h45, h43, Bool.or_self,
      Bool.false_eq_true, if_false]
  rw [hd] at htw hdw hval ⊢
  simp only [List.cons_append] at htw hdw ⊢
  rw [hstep, htw, hdw, hval]
  simp

/-- No byte of a numeral is NUL. -/
theorem decimal_nonzero (n : Nat) : ∀ d ∈ decimal n, (d != 0) = true := by
  intro d hd
  have h := (decimal_spec n).2.1 d hd
  simp [isdigit] at h
  simp
  omega

/-- After a read of at most 63 bytes, none of them NUL, into the zeroed buffer,
the buffer denotes exactly the bytes read. -/
theorem cstr_readInto (text : List Nat) (hlen : text.length ≤ 63)
    (hnz : ∀ b ∈ text, (b != 0) = true) :
    cstr (readInto (List.replicate 64 0) text (64 - 1)) = text := by
  have htake : text.take (64 - 1) = text := List.take_of_length_le (by omega)
  obtain ⟨k, hk⟩ : ∃ k, 64 - text.length = k + 1 := ⟨63 - text.length, by omega⟩
  have hdrop : (List.replicate 64 0).drop text.length = 0 :: List.replicate k 0 := by
    rw [List.drop_replicate, hk, List.replicate_succ]
  rw [readInto, htake, hdrop, cstr]
  exact takeWhile_append_stop _ text 0 _ hnz (by simp)

/-- No byte of a cursor position reply is NUL. -/
theorem cursorReply_nonzero (row col : Nat) : ∀ b ∈ cursorReply row col, (b != 0) = true := by
  intro b hb
  simp only [cursorReply, List.mem_append, List.mem_cons, List.mem_singleton,
    List.not_mem_nil, or_false] at hb
  rcases hb with (((h | h) | h) | h) | h
  · rcases h with h | h <;> simp [h]
  · exact decimal_nonzero row b h
  · simp [h]
  · exact decimal_nonzero col b h
  · simp [h]

/-- No byte of a cell size reply is NUL. -/
theorem cellReply_nonzero (height width : Nat) :
    ∀ b ∈ cellReply height width, (b != 0) = true := by
  intro b hb
  simp only [cellReply, List.mem_append, List.mem_cons, List.mem_singleton,
    List.not_mem_nil, or_false] at hb
  rcases hb with (((h | h) | h) | h) | h
  · rcases h with h | h | h | h <;> simp [h]
  · exact decimal_nonzero height b h
  · simp [h]
  · exact decimal_nonzero width b h
  · simp [h]

/-- Scanning a cursor position reply assigns the row and the column. -/
theorem scan_cursorReply (row col : Nat) (hrow : row < 2147483648) (hcol : col < 2147483648) :
    scanDirectives (parseFormat cursorFormat) (cursorReply row col) [] =
      (2, [(row : Int), (col : Int)]) := by
  have hfmt : parseFormat cursorFormat = [Directive.lit 27, Directive.lit 91, Directive.int,
      Directive.lit 59, Directive.int, Directive.lit 82] := by decide
  have h1 := scanInt_decimal row 59 (decimal col ++ [82]) hrow (by decide)
  have h2 := scanInt_decimal col 82 [] hcol (by decide)
  have htext : cursorReply row col = 27 :: 91 :: (decimal row ++ 59 :: (decimal col ++ [82])) := by
    simp [cursorReply]
  rw [hfmt, htext]
  simp [scanDirectives, h1, h2]

/-- Scanning a cell size reply assigns 6, the height and the width. -/
theorem scan_cellReply (height width : Nat) (hh : height < 2147483648)
    (hw : width < 2147483648) :
    scanDirectives (parseFormat cellFormat) (cellReply height width) [] =
      (3, [6, (height : Int), (width : Int)]) := by
  have hfmt : parseFormat cellFormat = [Directive.lit 27, Directive.lit 91, Directive.int,
      Directive.lit 59, Directive.int, Directive.lit 59, Directive.int, Directive.lit 116] := by
    decide
  have h0 : ∀ rest, scanInt (54 :: 59 :: rest) = Conv.ok 6 (59 :: rest) := by
    intro rest
    have := scanInt_decimal 6 59 rest (by decide) (by decide)
    have hd : decimal 6 = [54] := by decide
    rw [hd] at this
    simpa using this
  have h1 := scanInt_decimal height 59 (decimal width ++ [116]) hh (by decide)
  have h2 := scanInt_decimal width 116 [] hw (by decide)
  have htext : cellReply height width =
      27 :: 91 :: 54 :: 59 :: (decimal height ++ 59 :: (decimal width ++ [116])) := by
    simp [cellReply]
  rw [hfmt, htext]
  simp [scanDirectives, h0, h1, h2]

/-! ## The claims -/

/-- C1: on a well-formed cursor position reply `ESC [ row ; col R` with `row` and
`col` below `2^31` and at most 63 bytes long, when the open succeeds and the
read delivers exactly that text, `terminal_query_cursor_position` returns the
pair `(row . col)`, the row first. -/
theorem cursor_position_well_formed (K : Consts) (dev : Device) (attrs : Termios)
    (row col : Nat) (hrow : row < 2 ^ 31) (hcol : col < 2 ^ 31)
    (hlen : (cursorReply row col).length ≤ 63)
    (hopen : 0 ≤ dev.openRet)
    (hn : dev.readRet = ((cursorReply row col).length : Int))
    (hdata : dev.readData = cursorReply row col) :
    (terminal_query_cursor_position K dev attrs).result
      = QueryResult.Present (row : Int) (col : Int) := by
  have hpos : ¬ dev.openRet < 0 := by omega
  have hlen0 : 0 < (cursorReply row col).length := by simp [cursorReply]
  have hnpos : ¬ dev.readRet ≤ 0 := by rw [hn]; omega
  have hs : sscanf (readInto (List.replicate 64 0) (cursorReply row col) (64 - 1)) cursorFormat
      = (2, [(row : Int), (col : Int)]) := by
    rw [sscanf, cstr_readInto _ hlen (cursorReply_nonzero row col)]
    exact scan_cursorReply row col (by simpa using hrow) (by simpa using hcol)
  simp only [terminal_query_cursor_position, hpos, if_false, exchange, cursorResult, hnpos,
    hdata, hs]
  simp

/-- C2: on a well-formed cell size reply `ESC [ 6 ; height ; width t` with
`height` and `width` below `2^31` and at most 63 bytes long, when the open
succeeds and the read delivers exactly that text, `terminal_query_cell_size`
returns the pair `(width . height)`: the third field first, the second field
second. -/
theorem cell_size_well_formed (K : Consts) (dev : Device) (attrs : Termios)
    (height width : Nat) (hh : height < 2 ^ 31) (hw : width < 2 ^ 31)
    (hlen : (cellReply height width).length ≤ 63)
    (hopen : 0 ≤ dev.openRet)
    (hn : dev.readRet = ((cellReply height width).length : Int))
    (hdata : dev.readData = cellReply height width) :
    (terminal_query_cell_size K dev attrs).result
      = QueryResult.Present (width : Int) (height : Int) := by
  have hpos : ¬ dev.openRet < 0 := by omega
  have hlen0 : 0 < (cellReply height width).length := by simp [cellReply]
  have hnpos : 0 < dev.readRet := by rw [hn]; omega
  have hs : sscanf (readInto (List.replicate 64 0) (cellReply height width) (64 - 1)) cellFormat
      = (3, [6, (height : Int), (width : Int)]) := by
    rw [sscanf, cstr_readInto _ hlen (cellReply_nonzero height width)]
    exact scan_cellReply height width (by simpa using hh) (by simpa using hw)
  simp only [terminal_query_cell_size, hpos, if_false, exchange, cellResult, hnpos,
    hdata, hs]
  simp

/-- Witness of C1: the reply `"\x1b[24;80R"` gives `(24 . 80)`. -/
theorem cursor_position_well_formed_witness :
    cursorReply 24 80 = bytes "\x1b[24;80R" ∧
    (terminal_query_cursor_position linux (replying 3 cooked (bytes "\x1b[24;80R")) cooked).result
      = QueryResult.Present 24 80 :=
  ⟨by decide,
    cursor_position_well_formed linux (replying 3 cooked (bytes "\x1b[24;80R")) cooked 24 80
      (by decide) (by decide) (by decide) (by decide) (by decide) (by decide)⟩

/-- Witness of C2: the reply `"\x1b[6;16;8t"` gives `(8 . 16)`. -/
theorem cell_size_well_formed_witness :
    cellReply 16 8 = bytes "\x1b[6;16;8t" ∧
    (terminal_query_cell_size linux (replying 3 cooked (bytes "\x1b[6;16;8t")) cooked).result
      = QueryResult.Present 8 16 :=
  ⟨by decide,
    cell_size_well_formed linux (replying 3 cooked (bytes "\x1b[6;16;8t")) cooked 16 8
      (by decide) (by decide) (by decide) (by decide) (by decide) (by decide)⟩

/-- The value `sscanf` returns is the number of values it stored, or `EOF` with
nothing stored. -/
theorem scanDirectives_shape (fmt : List Directive) : ∀ (s : List Nat) (acc : List Int),
    (scanDirectives fmt s acc).1 = ((scanDirectives fmt s acc).2.length : Int) ∨
      ((scanDirectives fmt s acc).1 = -1 ∧ (scanDirectives fmt s acc).2 = []) := by
  induction fmt with
  | nil => intro s acc; simp [scanDirectives]
  | cons d fmt ih =>
    intro s acc
    have hin : (inputError acc).1 = ((inputError acc).2.length : Int) ∨
        ((inputError acc).1 = -1 ∧ (inputError acc).2 = []) := by
      cases acc with
      | nil => simp [inputError]
      | cons a acc => simp [inputError]
    cases d with
    | lit c =>
      cases s with
      | nil => simpa [scanDirectives] using hin
      | cons x s =>
        by_cases hx : x = c
        · simpa [scanDirectives, hx] using ih s acc
        · simp [scanDirectives, hx]
    | int =>
      cases hsc : scanInt s with
      | inputError => simpa [scanDirectives, hsc] using hin
      | convError => simp [scanDirectives, hsc]
      | ok v rest => simpa [scanDirectives, hsc] using ih rest (acc ++ [v])

/-- When `sscanf` returns 3 it has stored three values. -/
theorem sscanf_three (buf format : List Nat) (h : (sscanf buf format).1 = 3) :
    ∃ a b c, (sscanf buf format).2 = [a, b, c] := by
  have hs := scanDirectives_shape (parseFormat format) (cstr buf) []
  rw [← sscanf] at hs
  rcases hs with hs | ⟨hs, _⟩
  · rw [h] at hs
    have hl : (sscanf buf format).2.length = 3 := by omega
    match hv : (sscanf buf format).2, hl with
    | [a, b, c], _ => exact ⟨a, b, c, rfl⟩
  · omega

/-- C3: in `terminal_query_cell_size`, whenever the first value `sscanf` stores
(the report subtype) is not 6, or no value is stored at all, the result is
`nil`; every pair returned comes from a reply for which `sscanf` returned 3 and
stored 6 as the subtype, with the pair's components the third and the second
stored value; and the reply `"\x1b[7;8;9t"` gives `nil`. -/
theorem cell_size_subtype (K : Consts) (dev : Device) (attrs : Termios) :
    ((sscanf (exchange K cellRequest dev attrs).buf cellFormat).2.head? ≠ some 6 →
      (terminal_query_cell_size K dev attrs).result = QueryResult.Absent) ∧
    (∀ w h : Int, (terminal_query_cell_size K dev attrs).result = QueryResult.Present w h →
      sscanf (exchange K cellRequest dev attrs).buf cellFormat = (3, [6, h, w])) ∧
    (terminal_query_cell_size linux (replying 3 cooked (bytes "\x1b[7;8;9t")) cooked).result
      = QueryResult.Absent := by
  have key : ∀ w h : Int, (terminal_query_cell_size K dev attrs).result = QueryResult.Present w h →
      sscanf (exchange K cellRequest dev attrs).buf cellFormat = (3, [6, h, w]) := by
    intro w h hres
    by_cases hopen : dev.openRet < 0
    · simp [terminal_query_cell_size, hopen] at hres
    · simp only [terminal_query_cell_size, hopen, if_false, cellResult] at hres
      split_ifs at hres with hn hr
      · obtain ⟨a, b, c, habc⟩ := sscanf_three _ _ hr.1
        have h6 := hr.2
        rw [habc] at h6 hres
        simp at h6 hres
        obtain ⟨hw, hh⟩ := hres
        subst h6 hw hh
        exact Prod.ext hr.1 habc
  refine ⟨?_, key, by decide⟩
  intro hne
  cases hres : (terminal_query_cell_size K dev attrs).result with
  | Absent => rfl
  | Present w h =>
    exfalso
    apply hne
    rw [key w h hres]
    rfl

/-- Witness of C3: a reply with subtype 7 whose three fields and terminator
all parse. -/
theorem cell_size_subtype_witness :
    sscanf (exchange linux cellRequest (replying 3 cooked (bytes "\x1b[7;8;9t")) cooked).buf cellFormat
      = (3, [7, 8, 9]) ∧
    (terminal_query_cell_size linux (replying 3 cooked (bytes "\x1b[7;8;9t")) cooked).result
      = QueryResult.Absent :=
  ⟨by decide,
    (cell_size_subtype linux (replying 3 cooked (bytes "\x1b[7;8;9t")) cooked).1 (by decide)⟩

/-- A format starting with ESC and `[` assigns nothing on a buffer that does
not start with these two bytes. -/
theorem scan_unanchored (buf : List Nat) (rest : List Directive)
    (h : buf.take 2 ≠ [27, 91]) :
    (scanDirectives (Directive.lit 27 :: Directive.lit 91 :: rest) (cstr buf) []).1 ≤ 0 := by
  rcases buf with _ | ⟨a, _ | ⟨b, t⟩⟩
  · simp [cstr, scanDirectives, inputError]
  · by_cases ha0 : a = 0
    · simp [cstr, ha0, scanDirectives, inputError]
    · by_cases ha : a = 27
      · simp [cstr, ha, scanDirectives, inputError]
      · simp [cstr, ha0, ha, scanDirectives]
  · by_cases ha0 : a = 0
    · simp [cstr, ha0, scanDirectives, inputError]
    · by_cases ha : a = 27
      · by_cases hb0 : b = 0
        · simp [cstr, ha, hb0, scanDirectives, inputError]
        · have hb : b ≠ 91 := by
            intro hb
            apply h
            simp [ha, hb]
          simp [cstr, List.takeWhile_cons, ha, hb0, hb, scanDirectives]
      · simp [cstr, List.takeWhile_cons, ha0, ha, scanDirectives]

/-- C4 (evaluation of the code where it departs from the claim): the byte after
the last integer field is not checked. The cursor query returns `(12 . 34)` on
`"\x1b[12;34X"` and `(24 . 8)` on the reply `"\x1b[24;8"` cut short before its
terminator, and the cell size query returns `(8 . 16)` on `"\x1b[6;16;8"` and
on `"\x1b[6;16;8X"`: `sscanf` returns the number of assignments, which a
mismatch after the last `%d` does not lower. -/
theorem terminator_not_checked :
    (terminal_query_cursor_position linux (replying 3 cooked (bytes "\x1b[12;34X")) cooked).result
      = QueryResult.Present 12 34 ∧
    (terminal_query_cursor_position linux (replying 3 cooked (bytes "\x1b[24;8")) cooked).result
      = QueryResult.Present 24 8 ∧
    (terminal_query_cell_size linux (replying 3 cooked (bytes "\x1b[6;16;8")) cooked).result
      = QueryResult.Present 8 16 ∧
    (terminal_query_cell_size linux (replying 3 cooked (bytes "\x1b[6;16;8X")) cooked).result
      = QueryResult.Present 8 16 := by
  decide

/-- C5: when the first two bytes of the buffer after the read are not ESC
followed by `[`, both operations return `nil`, whatever the byte count and the
rest of the buffer; in particular leading noise is not skipped: the cursor query
gives `nil` on `"garbage\x1b[12;34R"` and `(12 . 34)` on `"\x1b[12;34R"`. -/
theorem unanchored_absent (K : Consts) (dev : Device) (attrs : Termios)
    (h : (readInto (List.replicate 64 0) dev.readData (64 - 1)).take 2 ≠ [27, 91]) :
    ((terminal_query_cursor_position K dev attrs).result = QueryResult.Absent ∧
      (terminal_query_cell_size K dev attrs).result = QueryResult.Absent) ∧
    (terminal_query_cursor_position linux
        (replying 3 cooked (bytes "garbage\x1b[12;34R")) cooked).result = QueryResult.Absent ∧
    (terminal_query_cursor_position linux
        (replying 3 cooked (bytes "\x1b[12;34R")) cooked).result = QueryResult.Present 12 34 := by
  refine ⟨?_, by decide, by decide⟩
  have hcur : parseFormat cursorFormat = Directive.lit 27 :: Directive.lit 91 ::
      [Directive.int, Directive.lit 59, Directive.int, Directive.lit 82] := by decide
  have hcell : parseFormat cellFormat = Directive.lit 27 :: Directive.lit 91 ::
      [Directive.int, Directive.lit 59, Directive.int, Directive.lit 59, Directive.int,
        Directive.lit 116] := by decide
  have h1 := scan_unanchored _ [Directive.int, Directive.lit 59, Directive.int,
    Directive.lit 82] h
  have h2 := scan_unanchored _ [Directive.int, Directive.lit 59, Directive.int,
    Directive.lit 59, Directive.int, Directive.lit 116] h
  rw [← hcur] at h1
  rw [← hcell] at h2
  constructor
  · simp only [terminal_query_cursor_position, exchange, cursorResult, sscanf]
    split_ifs <;> first | rfl | omega
  · simp only [terminal_query_cell_size, exchange, cellResult, sscanf]
    split_ifs with _ _ hr <;> first | rfl | exact absurd hr.1 (by omega)

/-- Witness of C5: a reply that starts with a space before the introducer. -/
theorem unanchored_absent_witness :
    (readInto (List.replicate 64 0) (bytes " \x1b[12;34R") (64 - 1)).take 2 ≠ [27, 91] ∧
    (terminal_query_cursor_position linux
        (replying 3 cooked (bytes " \x1b[12;34R")) cooked).result = QueryResult.Absent ∧
    (terminal_query_cell_size linux
        (replying 3 cooked (bytes " \x1b[12;34R")) cooked).result = QueryResult.Absent :=
  ⟨by decide,
    (unanchored_absent linux (replying 3 cooked (bytes " \x1b[12;34R")) cooked (by decide)).1⟩

/-- One call leaves the attribute state as it found it when `tcgetattr` and the
restoring `tcsetattr` succeed. -/
theorem call_attrs (K : Consts) (op : Op) (dev : Device) (attrs : Termios)
    (hget : dev.getOk = true) (hres : dev.restoreOk = true) :
    (call K op dev attrs).attrs = attrs := by
  cases op <;>
    by_cases hopen : dev.openRet < 0 <;>
    simp [call, terminal_query_cursor_position, terminal_query_cell_size, exchange, hopen,
      hget, hres]

/-- C6: on a device whose attribute calls work (`tcgetattr` reads the attribute
state, the restoring `tcsetattr` stores it), for every initial attribute
state, every finite sequence of calls of either operation and every behaviour
of `open`, `write` and `read` during them, the attribute state after each call
is the state right before that call (and so the initial one), whatever the
call returned. -/
theorem terminal_mode_preserved (K : Consts) (calls : List (Op × Device)) :
    ∀ init : Termios, (∀ c ∈ calls, c.2.getOk = true ∧ c.2.restoreOk = true) →
      ∀ e ∈ runCalls K init calls, e.2.attrs = e.1 ∧ e.1 = init := by
  induction calls with
  | nil => intro init _ e he; simp [runCalls] at he
  | cons c calls ih =>
    intro init h e he
    obtain ⟨op, dev⟩ := c
    have hc := h (op, dev) (by simp)
    have hattrs := call_attrs K op dev init hc.1 hc.2
    simp only [runCalls, List.mem_cons] at he
    rcases he with he | he
    · subst he
      exact ⟨hattrs, rfl⟩
    · rw [hattrs] at he
      exact ih init (fun c hc => h c (by simp [hc])) e he

/-- Witness of C6: the attribute state around each of the five sample calls. -/
theorem terminal_mode_preserved_witness :
    (runCalls linux cooked sampleCalls).map (fun e => e.2.result)
      = [QueryResult.Present 24 80, QueryResult.Absent, QueryResult.Absent,
          QueryResult.Absent, QueryResult.Absent] ∧
    ∀ e ∈ runCalls linux cooked sampleCalls, e.2.attrs = e.1 ∧ e.1 = cooked :=
  ⟨by decide, terminal_mode_preserved linux sampleCalls cooked (by decide)⟩

/-- C7 (counterexample): with a successful open and failing `tcgetattr` and
`tcsetattr`, a well-formed reply still gives a pair: `(24 . 80)` from the cursor
query and `(8 . 16)` from the cell size query, not `nil`. -/
theorem attr_failure_not_absent :
    0 ≤ (attrFailing 3 cooked (bytes "\x1b[24;80R")).openRet ∧
    (attrFailing 3 cooked (bytes "\x1b[24;80R")).getOk = false ∧
    (attrFailing 3 cooked (bytes "\x1b[24;80R")).setOk = false ∧
    (terminal_query_cursor_position linux (attrFailing 3 cooked (bytes "\x1b[24;80R")) cooked).result
      = QueryResult.Present 24 80 ∧
    (terminal_query_cursor_position linux (attrFailing 3 cooked (bytes "\x1b[24;80R")) cooked).result
      ≠ QueryResult.Absent ∧
    (terminal_query_cell_size linux (attrFailing 3 cooked (bytes "\x1b[6;16;8t")) cooked).result
      = QueryResult.Present 8 16 := by
  decide

/-- C7 (amended): when the open succeeds, a failure of `tcgetattr` or of a
`tcsetattr` is ignored: each operation returns the value computed from the byte
count and the buffer of the read alone, the same value for every combination
of success and failure of the attribute calls. -/
theorem attr_failure_ignored (K : Consts) (dev : Device) (attrs : Termios)
    (hopen : 0 ≤ dev.openRet) :
    (terminal_query_cursor_position K dev attrs).result
      = (cursorResult dev.readRet (readInto (List.replicate 64 0) dev.readData (64 - 1))).1 ∧
    (terminal_query_cell_size K dev attrs).result
      = (cellResult dev.readRet (readInto (List.replicate 64 0) dev.readData (64 - 1))).1 ∧
    ∀ (g s r : Bool) (t : Termios),
      (terminal_query_cursor_position K
          { dev with getOk := g, setOk := s, restoreOk := r, stackTio := t } attrs).result
        = (terminal_query_cursor_position K dev attrs).result ∧
      (terminal_query_cell_size K
          { dev with getOk := g, setOk := s, restoreOk := r, stackTio := t } attrs).result
        = (terminal_query_cell_size K dev attrs).result := by
  have hpos : ¬ dev.openRet < 0 := by omega
  simp [terminal_query_cursor_position, terminal_query_cell_size, exchange, hpos]

/-- Witness of the amended C7: the device of the counterexample returns what
the device on which every attribute call succeeds returns. -/
theorem attr_failure_ignored_witness :
    0 ≤ (replying 3 cooked (bytes "\x1b[24;80R")).openRet ∧
    (terminal_query_cursor_position linux (attrFailing 3 cooked (bytes "\x1b[24;80R")) cooked).result
      = (terminal_query_cursor_position linux
          (replying 3 cooked (bytes "\x1b[24;80R")) cooked).result :=
  ⟨by decide,
    ((attr_failure_ignored linux (replying 3 cooked (bytes "\x1b[24;80R")) cooked
      (by decide)).2.2 false false false cooked).1⟩

/-- C8: when `open` returns a negative descriptor, both operations return `nil`,
the only library call made is the `open` itself (no attribute get or set, no
write, no sleep, no read, no restore, no close, no parse), and the terminal's
attributes are untouched. -/
theorem open_failure (K : Consts) (dev : Device) (attrs : Termios) (h : dev.openRet < 0) :
    (terminal_query_cursor_position K dev attrs).result = QueryResult.Absent ∧
    (terminal_query_cursor_position K dev attrs).trace = [Effect.openTty] ∧
    (terminal_query_cursor_position K dev attrs).attrs = attrs ∧
    (terminal_query_cell_size K dev attrs).result = QueryResult.Absent ∧
    (terminal_query_cell_size K dev attrs).trace = [Effect.openTty] ∧
    (terminal_query_cell_size K dev attrs).attrs = attrs := by
  simp [terminal_query_cursor_position, terminal_query_cell_size, h]

/-- Witness of C8: `open` returns -1 on a device that would deliver a
well-formed reply. -/
theorem open_failure_witness :
    (replying (-1) cooked (bytes "\x1b[24;80R")).openRet < 0 ∧
    (terminal_query_cursor_position linux (replying (-1) cooked (bytes "\x1b[24;80R")) cooked).trace
      = [Effect.openTty] :=
  ⟨by decide,
    (open_failure linux (replying (-1) cooked (bytes "\x1b[24;80R")) cooked (by decide)).2.1⟩

/-- C9: when the read returns a byte count `n ≤ 0`, both operations return `nil`
whatever the buffer holds, and `sscanf` is not called at all. -/
theorem nonpositive_read (K : Consts) (dev : Device) (attrs : Termios)
    (h : dev.readRet ≤ 0) :
    (terminal_query_cursor_position K dev attrs).result = QueryResult.Absent ∧
    (terminal_query_cell_size K dev attrs).result = QueryResult.Absent ∧
    (∀ b f, Effect.sscanf b f ∉ (terminal_query_cursor_position K dev attrs).trace) ∧
    (∀ b f, Effect.sscanf b f ∉ (terminal_query_cell_size K dev attrs).trace) ∧
    (∀ buf, cursorResult dev.readRet buf = (QueryResult.Absent, [])) ∧
    (∀ buf, cellResult dev.readRet buf = (QueryResult.Absent, [])) := by
  have hn : ¬ 0 < dev.readRet := by omega
  have h1 : ∀ buf, cursorResult dev.readRet buf = (QueryResult.Absent, []) := by
    intro buf; simp [cursorResult, h]
  have h2 : ∀ buf, cellResult dev.readRet buf = (QueryResult.Absent, []) := by
    intro buf; simp [cellResult, hn]
  refine ⟨?_, ?_, ?_, ?_, h1, h2⟩
  · by_cases hopen : dev.openRet < 0 <;>
      simp [terminal_query_cursor_position, exchange, hopen, h1]
  · by_cases hopen : dev.openRet < 0 <;>
      simp [terminal_query_cell_size, exchange, hopen, h2]
  · intro b f
    by_cases hopen : dev.openRet < 0 <;>
      simp [terminal_query_cursor_position, exchange, hopen, h1]
  · intro b f
    by_cases hopen : dev.openRet < 0 <;>
      simp [terminal_query_cell_size, exchange, hopen, h2]

/-- Witness of C9: a read that reports 0 bytes although the buffer holds a
well-formed reply, and a read that fails with -1. -/
theorem nonpositive_read_witness :
    (terminal_query_cursor_position linux
        { replying 3 cooked (bytes "\x1b[24;80R") with readRet := 0 } cooked).result
      = QueryResult.Absent ∧
    (terminal_query_cell_size linux
        { replying 3 cooked (bytes "\x1b[6;16;8t") with readRet := -1 } cooked).result
      = QueryResult.Absent :=
  ⟨(nonpositive_read linux { replying 3 cooked (bytes "\x1b[24;80R") with readRet := 0 } cooked
      (by decide)).1,
    (nonpositive_read linux { replying 3 cooked (bytes "\x1b[6;16;8t") with readRet := -1 } cooked
      (by decide)).2.1⟩

/-- On 32-bit words, `a & ~m` keeps the bits of `a` that are not in `m`. -/
theorem testBit_clear (a m : Nat) (ha : a < 4294967296) (hm : m < 4294967296) (i : Nat) :
    (a &&& (4294967295 - m)).testBit i = (a.testBit i && !m.testBit i) := by
  have hm2 : m < 2 ^ 32 := by simpa using hm
  have h := Nat.testBit_two_pow_sub_succ hm2 i
  have he : 2 ^ 32 - (m + 1) = 4294967295 - m := by
    have : (2 : Nat) ^ 32 = 4294967296 := by norm_num
    omega
  rw [he] at h
  rw [Nat.testBit_and, h]
  by_cases hi : i < 32
  · simp [hi]
  · have hlt : a < 2 ^ i := by
      have : (2 : Nat) ^ 32 ≤ 2 ^ i := Nat.pow_le_pow_right (by decide) (by omega)
      have h32 : (2 : Nat) ^ 32 = 4294967296 := by norm_num
      omega
    simp [Nat.testBit_eq_false_of_lt hlt]

/-- What `rawMode` changes: the two mode bits of `c_lflag` and the two entries
`VMIN` and `VTIME` of `c_cc`, nothing else. -/
theorem rawMode_spec (K : Consts) (old : Termios) (h : Sound K old) :
    (rawMode K old).c_iflag = old.c_iflag ∧
    (rawMode K old).c_oflag = old.c_oflag ∧
    (rawMode K old).c_cflag = old.c_cflag ∧
    (∀ i, (rawMode K old).c_lflag.testBit i
      = (old.c_lflag.testBit i && !(K.ICANON.testBit i || K.ECHO.testBit i))) ∧
    (rawMode K old).c_cc.length = old.c_cc.length ∧
    (rawMode K old).c_cc[K.VMIN]? = some 0 ∧
    (rawMode K old).c_cc[K.VTIME]? = some 5 ∧
    (∀ j, j ≠ K.VMIN → j ≠ K.VTIME → (rawMode K old).c_cc[j]? = old.c_cc[j]?) := by
  obtain ⟨hI, hE, hne, hl, hmin, htime⟩ := h
  have hor : K.ICANON ||| K.ECHO < 4294967296 := by
    have : K.ICANON ||| K.ECHO < 2 ^ 32 := Nat.or_lt_two_pow (by simpa using hI) (by simpa using hE)
    simpa using this
  refine ⟨rfl, rfl, rfl, ?_, ?_, ?_, ?_, ?_⟩
  · intro i
    simp only [rawMode]
    rw [testBit_clear _ _ hl hor, Nat.testBit_or]
  · simp [rawMode]
  · simp only [rawMode]
    rw [List.getElem?_set_ne (Ne.symm hne), List.getElem?_set_self hmin]
  · simp only [rawMode]
    rw [List.getElem?_set_self (by simpa using htime)]
  · intro j h1 h2
    simp only [rawMode]
    rw [List.getElem?_set_ne (Ne.symm h2), List.getElem?_set_ne (Ne.symm h1)]

/-- C10: on every call in which the open succeeds, whatever `write`, `read` and
the parse do, the library calls made by each operation are, in this order:
`tcgetattr`; `tcsetattr` with the raw configuration; `write` of the request
(`"\x1b[6n"`, 4 bytes, or `"\x1b[16t"`, 5 bytes); `usleep(100000)`; one `read`
of at most 63 bytes into a zeroed 64-byte buffer; `tcsetattr` with the captured
attributes; `close`; and only then `sscanf`, when the byte count is positive.
There is one `close`, after the restoring `tcsetattr`. The returned value is computed from the byte count and the buffer after the
close. The raw configuration is the captured attributes with the `ICANON` and
`ECHO` bits cleared, `c_cc[VMIN] = 0`, `c_cc[VTIME] = 5` and everything else
unchanged. -/
theorem effect_sequence (K : Consts) (dev : Device) (attrs : Termios)
    (hopen : 0 ≤ dev.openRet) :
    (terminal_query_cursor_position K dev attrs).trace
      = [Effect.openTty, Effect.tcgetattr dev.openRet,
          Effect.tcsetattr dev.openRet (rawMode K (if dev.getOk then attrs else dev.stackTio)),
          Effect.write dev.openRet (bytes "\x1b[6n"), Effect.usleep 100000,
          Effect.read dev.openRet (List.replicate 64 0) 63,
          Effect.tcsetattr dev.openRet (if dev.getOk then attrs else dev.stackTio),
          Effect.close dev.openRet]
        ++ (if dev.readRet ≤ 0 then []
            else [Effect.sscanf (readInto (List.replicate 64 0) dev.readData 63)
              (bytes "\x1b[%d;%dR")]) ∧
    (terminal_query_cell_size K dev attrs).trace
      = [Effect.openTty, Effect.tcgetattr dev.openRet,
          Effect.tcsetattr dev.openRet (rawMode K (if dev.getOk then attrs else dev.stackTio)),
          Effect.write dev.openRet (bytes "\x1b[16t"), Effect.usleep 100000,
          Effect.read dev.openRet (List.replicate 64 0) 63,
          Effect.tcsetattr dev.openRet (if dev.getOk then attrs else dev.stackTio),
          Effect.close dev.openRet]
        ++ (if dev.readRet ≤ 0 then []
            else [Effect.sscanf (readInto (List.replicate 64 0) dev.readData 63)
              (bytes "\x1b[%d;%d;%dt")]) ∧
    (terminal_query_cursor_position K dev attrs).result
      = (cursorResult dev.readRet (readInto (List.replicate 64 0) dev.readData 63)).1 ∧
    (terminal_query_cell_size K dev attrs).result
      = (cellResult dev.readRet (readInto (List.replicate 64 0) dev.readData 63)).1 ∧
    (terminal_query_cursor_position K dev attrs).trace.count (Effect.close dev.openRet) = 1 ∧
    (terminal_query_cell_size K dev attrs).trace.count (Effect.close dev.openRet) = 1 ∧
    (bytes "\x1b[6n").length = 4 ∧ (bytes "\x1b[16t").length = 5 ∧
    ∀ old : Termios, Sound K old →
      (rawMode K old).c_iflag = old.c_iflag ∧
      (rawMode K old).c_oflag = old.c_oflag ∧
      (rawMode K old).c_cflag = old.c_cflag ∧
      (∀ i, (rawMode K old).c_lflag.testBit i
        = (old.c_lflag.testBit i && !(K.ICANON.testBit i || K.ECHO.testBit i))) ∧
      (rawMode K old).c_cc.length = old.c_cc.length ∧
      (rawMode K old).c_cc[K.VMIN]? = some 0 ∧
      (rawMode K old).c_cc[K.VTIME]? = some 5 ∧
      (∀ j, j ≠ K.VMIN → j ≠ K.VTIME → (rawMode K old).c_cc[j]? = old.c_cc[j]?) := by
  have hpos : ¬ dev.openRet < 0 := by omega
  have hreq1 : bytes "\x1b[6n" = cursorRequest := by decide
  have hreq2 : bytes "\x1b[16t" = cellRequest := by decide
  have hf1 : bytes "\x1b[%d;%dR" = cursorFormat := by decide
  have hf2 : bytes "\x1b[%d;%d;%dt" = cellFormat := by decide
  rw [hreq1, hreq2, hf1, hf2]
  have hc1 : (terminal_query_cursor_position K dev attrs).trace
      = [Effect.openTty, Effect.tcgetattr dev.openRet,
          Effect.tcsetattr dev.openRet (rawMode K (if dev.getOk then attrs else dev.stackTio)),
          Effect.write dev.openRet cursorRequest, Effect.usleep 100000,
          Effect.read dev.openRet (List.replicate 64 0) 63,
          Effect.tcsetattr dev.openRet (if dev.getOk then attrs else dev.stackTio),
          Effect.close dev.openRet]
        ++ (if dev.readRet ≤ 0 then []
            else [Effect.sscanf (readInto (List.replicate 64 0) dev.readData 63)
              cursorFormat]) := by
    simp only [terminal_query_cursor_position, hpos, if_false, exchange, cursorResult]
    split_ifs <;> simp
  have hc2 : (terminal_query_cell_size K dev attrs).trace
      = [Effect.openTty, Effect.tcgetattr dev.openRet,
          Effect.tcsetattr dev.openRet (rawMode K (if dev.getOk then attrs else dev.stackTio)),
          Effect.write dev.openRet cellRequest, Effect.usleep 100000,
          Effect.read dev.openRet (List.replicate 64 0) 63,
          Effect.tcsetattr dev.openRet (if dev.getOk then attrs else dev.stackTio),
          Effect.close dev.openRet]
        ++ (if dev.readRet ≤ 0 then []
            else [Effect.sscanf (readInto (List.replicate 64 0) dev.readData 63)
              cellFormat]) := by
    simp only [terminal_query_cell_size, hpos, if_false, exchange, cellResult]
    by_cases hn : dev.readRet ≤ 0
    · have hn2 : ¬ 0 < dev.readRet := by omega
      simp [hn, hn2]
    · have hn2 : 0 < dev.readRet := by omega
      simp only [hn, hn2, if_true, if_false]
      split_ifs <;> simp
  refine ⟨hc1, hc2, ?_, ?_, ?_, ?_, by decide, by decide, fun old h => rawMode_spec K old h⟩
  · simp [terminal_query_cursor_position, hpos, exchange]
  · simp [terminal_query_cell_size, hpos, exchange]
  · rw [hc1]
    split_ifs <;> simp [List.count_cons]
  · rw [hc2]
    split_ifs <;> simp [List.count_cons]

/-- Witness of C10: the calls of a cursor query on a terminal in canonical mode
with echo, with the Linux constants: the raw configuration has `c_lflag = 0`,
`c_cc[6] = 0` and `c_cc[5] = 5`. -/
theorem effect_sequence_witness :
    0 ≤ (replying 3 cooked (bytes "\x1b[24;80R")).openRet ∧ Sound linux cooked ∧
    (terminal_query_cursor_position linux (replying 3 cooked (bytes "\x1b[24;80R")) cooked).trace
      = [Effect.openTty, Effect.tcgetattr 3,
          Effect.tcsetattr 3 { cooked with c_lflag := 0, c_cc := [3, 28, 127, 21, 4, 5, 0] },
          Effect.write 3 [27, 91, 54, 110], Effect.usleep 100000,
          Effect.read 3 (List.replicate 64 0) 63,
          Effect.tcsetattr 3 cooked, Effect.close 3,
          Effect.sscanf (bytes "\x1b[24;80R" ++ List.replicate 56 0) cursorFormat] ∧
    (rawMode linux cooked).c_cc[linux.VMIN]? = some 0 :=
  ⟨by decide, by simp [Sound, linux, cooked],
    ((effect_sequence linux (replying 3 cooked (bytes "\x1b[24;80R")) cooked (by decide)).1).trans
      (by decide),
    ((effect_sequence linux (replying 3 cooked (bytes "\x1b[24;80R")) cooked
      (by decide)).2.2.2.2.2.2.2.2 cooked (by simp [Sound, linux, cooked])).2.2.2.2.2.1⟩

end TerminalQuery
